import Mathlib

/-!
Shallow embedding of the MTA ridership synchronization engine:

* scripts/utils/socrata.py          (request_json: shared retry/backoff helper)
* scripts/update_ridership_data.py  (yearly refresh: request_page, count_rows,
                                     build_where_clause, download_rows, process_year)
* scripts/local/data/update_turnstile_data.py
                                    (monthly sync: count_rows, completeness checks,
                                     download_month, inspect_duplicate_rows,
                                     process_task, is_future_month, task planning)

HTTP responses, remote row pages and filesystem effects are modeled explicitly:
each network-facing function is a pure function of the stream of responses it
would receive, and each sync routine returns the trace of filesystem operations
it performs, which is replayed over an explicit two-slot file state (the
canonical partition path and its temporary ".tmp" sibling).
-/

namespace MtaSync

/-! ## JSON values and Python-style helpers -/

/-- A JSON value, as produced by response.json() for one field of a row. -/
inductive JValue where
  | null
  | bool (b : Bool)
  | num (n : Int)
  | str (s : String)
  | arr (xs : List JValue)
  | obj (fields : List (String × JValue))

/-- A JSON row object: an ordered mapping of column name to value. -/
abbrev JRow := List (String × JValue)

/-- Python truthiness of a JSON value (bool(v)). -/
def pyTruthy : JValue → Bool
  | .null => false
  | .bool b => b
  | .num n => n ≠ 0
  | .str s => s ≠ ""
  | .arr xs => !xs.isEmpty
  | .obj fs => !fs.isEmpty

/-- dict.get: the value of the first binding of key k, if any. -/
def jrowGet (row : JRow) (k : String) : Option JValue :=
  (row.find? (fun kv => kv.1 = k)).map (fun kv => kv.2)

/-- Numeric value of an all-digit character list (helper for int()). -/
def digitsVal (cs : List Char) : Option Nat :=
  if cs = [] then none
  else if cs.all (fun c => c.isDigit) then
    some (cs.foldl (fun a c => a * 10 + (c.toNat - 48)) 0)
  else none

/-- Strip leading and trailing whitespace from a character list (str.strip, as
int() applies before parsing). -/
def trimChars (cs : List Char) : List Char :=
  ((cs.dropWhile (fun c => c.isWhitespace)).reverse.dropWhile (fun c => c.isWhitespace)).reverse

/-- Python int(str): optional sign then decimal digits, surrounding space allowed. -/
def parseIntStr (s : String) : Option Int :=
  match trimChars s.toList with
  | '-' :: rest => (digitsVal rest).map (fun n => -(n : Int))
  | '+' :: rest => (digitsVal rest).map (fun n => (n : Int))
  | cs => (digitsVal cs).map (fun n => (n : Int))

/-- Python int(v) on a JSON value; none models raising TypeError/ValueError. -/
def pyInt : JValue → Option Int
  | .str s => parseIntStr s
  | .num n => some n
  | .bool b => some (if b then 1 else 0)
  | _ => none

/-- Python (a or b) for an optional string a: falls through when a is None or "". -/
def pyOrStr (a : Option String) (b : String) : String :=
  match a with
  | some s => if s = "" then b else s
  | none => b

/-- Python (a or b) for two optional strings. -/
def pyOrOptStr (a : Option String) (b : Option String) : Option String :=
  match a with
  | some s => if s = "" then b else some s
  | none => b

/-- Python (not x) for an optional string (None and "" are falsy). -/
def pyFalsyOpt : Option String → Bool
  | none => true
  | some s => s = ""

/-! ## HTTP request layer with retry/backoff

Each call of session.get is modeled by the next element of a response stream:
either a network exception or a status code with a parsed JSON payload. -/

/-- The parsed JSON payload of one HTTP response body. -/
inductive Payload (α : Type) where
  | arr (rows : List α)
  | notFound
  | other
deriving DecidableEq

/-- The outcome of one session.get call. -/
inductive HttpAttempt (α : Type) where
  | netError
  | resp (status : Nat) (payload : Payload α)
deriving DecidableEq

/-- Backoff duration before retry number `attempt`: min(2 ** attempt, 60) seconds. -/
def backoff (attempt : Nat) : Nat := min (2 ^ attempt) 60

/-- scripts/utils/socrata.py request_json: the retry loop, as a function of the
response stream. Returns the result together with the list of sleep durations.
An error result models the function raising for that call. -/
def requestJsonGo {α : Type} (maxRetries : Nat) (attempt : Nat) :
    List (HttpAttempt α) → List Nat → Except String (List α) × List Nat
  | [], sleeps =>
    if attempt < maxRetries then (.error "model: response stream exhausted", sleeps)
    else (.error "Request failed after max retries.", sleeps)
  | .netError :: rest, sleeps =>
    if attempt < maxRetries then
      if attempt + 1 ≥ maxRetries then
        (.error "Request failed after retries", sleeps ++ [backoff (attempt + 1)])
      else requestJsonGo maxRetries (attempt + 1) rest (sleeps ++ [backoff (attempt + 1)])
    else (.error "Request failed after max retries.", sleeps)
  | .resp code payload :: rest, sleeps =>
    if attempt < maxRetries then
      if code = 429 then
        requestJsonGo maxRetries (attempt + 1) rest (sleeps ++ [backoff (attempt + 1)])
      else if 400 ≤ code then (.error "http status error", sleeps)
      else
        match payload with
        | .notFound => (.error "SODA3 endpoint reported not_found", sleeps)
        | .other => (.error "Unexpected payload type", sleeps)
        | .arr rows => (.ok rows, sleeps)
    else (.error "Request failed after max retries.", sleeps)

/-- request_json with the default retry ceiling (DEFAULT_MAX_RETRIES = 5). -/
def requestJson {α : Type} (responses : List (HttpAttempt α)) :
    Except String (List α) × List Nat :=
  requestJsonGo 5 0 responses []

/-- scripts/update_ridership_data.py request_page: identical retry loop except
that falling out of the loop returns an empty list instead of raising. -/
def requestPageGo {α : Type} (maxRetries : Nat) (attempt : Nat) :
    List (HttpAttempt α) → List Nat → Except String (List α) × List Nat
  | [], sleeps =>
    if attempt < maxRetries then (.error "model: response stream exhausted", sleeps)
    else (.ok [], sleeps)
  | .netError :: rest, sleeps =>
    if attempt < maxRetries then
      if attempt + 1 ≥ maxRetries then
        (.error "Request failed after retries", sleeps ++ [backoff (attempt + 1)])
      else requestPageGo maxRetries (attempt + 1) rest (sleeps ++ [backoff (attempt + 1)])
    else (.ok [], sleeps)
  | .resp code payload :: rest, sleeps =>
    if attempt < maxRetries then
      if code = 429 then
        requestPageGo maxRetries (attempt + 1) rest (sleeps ++ [backoff (attempt + 1)])
      else if 400 ≤ code then (.error "http status error", sleeps)
      else
        match payload with
        | .notFound => (.error "Dataset not found or inaccessible", sleeps)
        | .other => (.error "Unexpected payload structure", sleeps)
        | .arr rows => (.ok rows, sleeps)
    else (.ok [], sleeps)

/-- request_page with MAX_RETRIES = 5. -/
def requestPage {α : Type} (responses : List (HttpAttempt α)) :
    Except String (List α) × List Nat :=
  requestPageGo 5 0 responses []

/-- An attempt outcome that triggers the retry path (network error or HTTP 429). -/
def isRetryable {α : Type} : HttpAttempt α → Bool
  | .netError => true
  | .resp code _ => code = 429

/-! ## The count operation (Remote Count Oracle) -/

/-- The count value extracted from the first row of a count(1) response; shared
shape of both scripts: the single value when the row has exactly one field,
otherwise row.get("count") or row.get("count_1"). -/
def countValueOf (first : JRow) : Option JValue :=
  if first.length = 1 then first.head?.map (fun kv => kv.2)
  else pyOrOptJ (jrowGet first "count") (jrowGet first "count_1")
where
  /-- Python (a or b) on two optional JSON values. -/
  pyOrOptJ (a b : Option JValue) : Option JValue :=
    match a with
    | some v => if pyTruthy v then some v else b
    | none => b

/-- scripts/local/data/update_turnstile_data.py count_rows, applied to the rows
returned by request_json: KeyError/ValueError/TypeError are caught and 0 returned. -/
def countRowsT : List JRow → Int
  | [] => 0
  | first :: _ =>
    match (countValueOf first).bind pyInt with
    | some n => n
    | none => 0

/-- scripts/update_ridership_data.py count_rows, applied to the rows returned by
request_page: TypeError/ValueError are re-raised as RuntimeError. -/
def countRowsR : List JRow → Except String Int
  | [] => .ok 0
  | first :: _ =>
    match (countValueOf first).bind pyInt with
    | some n => .ok n
    | none => .error "Malformed count response"

/-! ## Filesystem model

Each monthly partition owns two paths: the canonical output path
data/raw/turnstile/year/month.csv and its temporary sibling month.csv.tmp; the
yearly script owns data/raw/ridership/year.csv with no temporary sibling. File
content is abstracted to the number of data rows it holds; `none` means that no
file exists at the path. -/

/-- File state for one partition: canonical path and temporary sibling path. -/
structure Files where
  canonical : Option Nat
  tmp : Option Nat
deriving DecidableEq, Repr

/-- One filesystem operation performed by a sync routine. -/
inductive FsEvent where
  /-- download_month writing n rows into the temporary path (open "w" then pages). -/
  | writeTmp (rows : Nat)
  /-- safe_unlink(temp_path). -/
  | unlinkTmp
  /-- safe_unlink(output_path). -/
  | unlinkCanonical
  /-- An open("w")/write_text at the canonical path itself, n rows. -/
  | writeCanonical (rows : Nat)
  /-- An open("a") append of n rows at the canonical path itself. -/
  | appendCanonical (rows : Nat)
  /-- temp_path.replace(output_path): atomic rename over the canonical path. -/
  | rename
deriving DecidableEq, Repr

/-- Effect of one filesystem operation on the partition's file state. -/
def applyEvent (fs : Files) : FsEvent → Files
  | .writeTmp n => { fs with tmp := some n }
  | .unlinkTmp => { fs with tmp := none }
  | .unlinkCanonical => { fs with canonical := none }
  | .writeCanonical n => { fs with canonical := some n }
  | .appendCanonical n => { fs with canonical := some (fs.canonical.getD 0 + n) }
  | .rename => { canonical := fs.tmp, tmp := none }

/-- Replay a trace of filesystem operations over an initial file state. -/
def runEvents (fs : Files) (trace : List FsEvent) : Files :=
  trace.foldl applyEvent fs

/-! ## Monthly turnstile sync (scripts/local/data/update_turnstile_data.py) -/

/-- Gregorian leap year test (calendar.isleap). -/
def isLeapYear (y : Int) : Bool :=
  (y % 4 = 0 && y % 100 ≠ 0) || y % 400 = 0

/-- get_last_day_of_month: calendar.monthrange(year, month)[1] for month 1..12. -/
def lastDayOfMonth (y : Int) (m : Nat) : Nat :=
  if m = 2 then (if isLeapYear y then 29 else 28)
  else if m = 4 ∨ m = 6 ∨ m = 9 ∨ m = 11 then 30
  else 31

/-- The remote-facing results one monthly task observes. Each field is the
return value of the corresponding callee of process_task; modeling them as an
environment makes process_task itself a pure function. -/
structure MonthEnv where
  /-- count_rows over the month predicate (the Remote Count Oracle, at fetch start). -/
  totalRows : Int
  /-- check_first_day_has_data. -/
  hasFirstDay : Bool
  /-- check_last_day_has_data. -/
  hasLastDay : Bool
  /-- count_unique_days. -/
  uniqueDays : Nat
  /-- row_count returned by download_month: rows it wrote to the temporary file. -/
  downloadedRows : Nat
  /-- rows_scanned returned by inspect_duplicate_rows re-reading the temporary file. -/
  scannedRows : Nat
  /-- duplicate_rows returned by inspect_duplicate_rows. -/
  duplicateRows : Nat
deriving DecidableEq, Repr

/-- process_task: one monthly download task. Result status is the
DownloadResult.status string; the second component is the trace of filesystem
operations performed, in order. The initial file state decides the
skip-validation branch (output_path.exists() and count_csv_data_rows). The
exception handler path (safe_unlink temp and status "errors") is not modeled;
all callee results are given by the environment instead of raising. -/
def processTask (year : Int) (month : Nat) (force verifyDuplicates : Bool)
    (env : MonthEnv) (fs : Files) : String × List FsEvent :=
  if env.totalRows ≤ 0 then
    ("incomplete", [.unlinkTmp, .unlinkCanonical])
  else if ¬env.hasFirstDay ∨ ¬env.hasLastDay ∨ env.uniqueDays ≠ lastDayOfMonth year month then
    ("incomplete", [.unlinkTmp, .unlinkCanonical])
  else if fs.canonical.isSome ∧ ¬force ∧ ((fs.canonical.getD 0 : Int) = env.totalRows) then
    ("skipped", [])
  else if env.downloadedRows = 0 then
    ("incomplete",
      [.unlinkTmp, .writeTmp env.downloadedRows, .unlinkTmp, .unlinkCanonical])
  else if (env.downloadedRows : Int) ≠ env.totalRows then
    ("errors", [.unlinkTmp, .writeTmp env.downloadedRows, .unlinkTmp])
  else if verifyDuplicates ∧ env.scannedRows ≠ env.downloadedRows then
    ("errors", [.unlinkTmp, .writeTmp env.downloadedRows, .unlinkTmp])
  else
    ("downloaded", [.unlinkTmp, .writeTmp env.downloadedRows, .rename])

/-! ## Duplicate auditor (inspect_duplicate_rows)

The CSV file is modeled as the list of its parsed records (header first). The
disk-backed SQLite multiset becomes an association list from row tuple to
occurrence count, kept in first-insertion order (the seq column). -/

/-- Upsert one row into the occurrence multiset (INSERT .. ON CONFLICT .. UPDATE). -/
def bumpRow (groups : List (List String × Nat)) (r : List String) :
    List (List String × Nat) :=
  if groups.any (fun p => p.1 = r) then
    groups.map (fun p => if p.1 = r then (p.1, p.2 + 1) else p)
  else groups ++ [(r, 1)]

/-- One iteration of the scan loop: bump total_rows and upsert the row. -/
def auditFold (acc : Nat × List (List String × Nat)) (r : List String) :
    Nat × List (List String × Nat) :=
  (acc.1 + 1, bumpRow acc.2 r)

/-- inspect_duplicate_rows: returns (rows_scanned, duplicate_row_count,
duplicate_row_samples). Rows are padded/truncated to the header width; the
duplicate count is the sum of (seen_count - 1); samples are the first
sample_limit distinct duplicated rows in first-insertion order, rendered as
header/value pairs. The function only reads the CSV (plus a scratch SQLite
sibling it deletes); it performs no operation on the partition's paths. -/
def inspectDuplicateRows (content : List (List String)) (sampleLimit : Nat) :
    Nat × Nat × List (List (String × String)) :=
  match content with
  | [] => (0, 0, [])
  | header :: rows =>
    let w := header.length
    let norm := rows.map (fun r => (r ++ List.replicate (w - r.length) "").take w)
    let res := norm.foldl auditFold (0, [])
    let dupes := res.2.foldl (fun s p => s + (p.2 - 1)) 0
    let samples :=
      ((res.2.filter (fun p => 1 < p.2)).map (fun p => header.zip p.1)).take sampleLimit
    (res.1, dupes, samples)

/-! ## Task planner (is_future_month and the scheduling loop in main) -/

/-- A calendar date, compared like datetime.date (lexicographically). -/
structure SimpleDate where
  year : Int
  month : Nat
  day : Nat
deriving DecidableEq, Repr

/-- datetime.date comparison a < b. -/
def dateLtb (a b : SimpleDate) : Bool :=
  if a.year ≠ b.year then a.year < b.year
  else if a.month ≠ b.month then a.month < b.month
  else a.day < b.day

/-- is_future_month: date(year, month, 1) > date(today.year, today.month, 1). -/
def isFutureMonth (year : Int) (month : Nat) (today : SimpleDate) : Bool :=
  dateLtb ⟨today.year, today.month, 1⟩ ⟨year, month, 1⟩

/-- Insert into a sorted list (helper for sorted(years)). -/
def insertSorted (x : Int) : List Int → List Int
  | [] => [x]
  | y :: ys => if x ≤ y then x :: y :: ys else y :: insertSorted x ys

/-- Python sorted() on a list of ints, by insertion sort. -/
def sortInts (xs : List Int) : List Int :=
  xs.foldr insertSorted []

/-- The inner month loop of main: tasks for one year, skipping future months. -/
def monthTasks (y : Int) (months : List Nat) (today : SimpleDate) : List (Int × Nat) :=
  months.foldl (fun acc m => if isFutureMonth y m today then acc else acc ++ [(y, m)]) []

/-- The task planning loop of main: for year in sorted(years), skipping years
absent from the dataset-id mapping, then all requested non-future months. -/
def planTasks (dsYears : List Int) (years : List Int) (months : List Nat)
    (today : SimpleDate) : List (Int × Nat) :=
  (sortInts years).foldl
    (fun acc y => if y ∈ dsYears then acc ++ monthTasks y months today else acc) []

/-! ## Yearly ridership refresh (scripts/update_ridership_data.py)

Data rows of this dataset are flat string-valued JSON objects, modeled as
ordered association lists. ISO-8601 timestamps of the fixed format used by the
script compare chronologically exactly as strings, so the timestamp order is
the string order. -/

/-- A Socrata data row: ordered mapping of column name to string value. -/
abbrev SRow := List (String × String)

/-- dict.get for a data row. -/
def rowGet (row : SRow) (k : String) : Option String :=
  (row.find? (fun kv => kv.1 = k)).map (fun kv => kv.2)

/-- key.startswith with the single character ":" (reserved Socrata keys). -/
def startsColon (s : String) : Bool :=
  match s.toList with
  | c :: _ => c = ':'
  | [] => false

/-- Drop reserved keys: the dict comprehension removing keys starting with ":". -/
def cleanRow (row : SRow) : SRow :=
  row.filter (fun kv => ¬startsColon kv.1)

/-- merge_columns: ordered union of non-reserved keys over the rows of a page. -/
def mergeColumns (rows : List SRow) : List String :=
  rows.foldl
    (fun acc r =>
      r.foldl
        (fun acc2 kv =>
          if startsColon kv.1 ∨ acc2.contains kv.1 then acc2 else acc2 ++ [kv.1])
        acc)
    []

/-- build_where_clause: the SoQL predicate string sent to the server. -/
def buildWhereClause (tsColumn lower upper : String) (inclusiveLower : Bool) : String :=
  let op := if inclusiveLower then ">=" else ">"
  tsColumn ++ " " ++ op ++ " " ++ "'" ++ lower ++ "'" ++ " AND " ++ tsColumn ++ " < " ++
    "'" ++ upper ++ "'"

/-- Accumulated state of the download_rows page loop. `kept` records the cleaned
rows whose projections are written (a specification-level observation of the
same rows as `written`); `opened` records whether the CSV file handle was
opened (it is, on the first non-empty page, even before any row is written). -/
structure DLResult where
  header : List String
  kept : List SRow
  written : List SRow
  latest : Option String
  opened : Bool
deriving Repr

/-- The per-row filter of the page loop: rows whose timestamp column is missing
or empty (after dropping reserved keys) are skipped; kept rows are the cleaned
rows. -/
def keepFun (tsCol : String) (r : SRow) : Option SRow :=
  match rowGet (cleanRow r) tsCol with
  | some t => if t = "" then none else some (cleanRow r)
  | none => none

/-- The row actually written to the CSV: the cleaned row projected onto the
header, missing columns becoming "". -/
def projectRow (header : List String) (c : SRow) : SRow :=
  header.map (fun col => (col, (rowGet c col).getD ""))

/-- Processing of one non-empty page inside download_rows: discover the header
if needed, filter and project the rows, append them, and advance the latest
timestamp to the timestamp of the last row appended. -/
def pageStep (tsCol : String) (acc : DLResult) (page : List SRow) : DLResult :=
  let header := if acc.header.isEmpty then mergeColumns page else acc.header
  let cleanedKept := page.filterMap (keepFun tsCol)
  let batch := cleanedKept.map (projectRow header)
  let latest :=
    match cleanedKept.getLast? with
    | some r => rowGet r tsCol
    | none => acc.latest
  { header := header, kept := acc.kept ++ cleanedKept,
    written := acc.written ++ batch, latest := latest, opened := true }

/-- The page loop of download_rows. A page models one request_page result; the
loop stops before processing an empty page and after processing a short one. -/
def downloadRowsGo (tsCol : String) (pageSize : Nat) :
    List (List SRow) → DLResult → DLResult
  | [], acc => acc
  | page :: rest, acc =>
    if page.isEmpty then acc
    else if page.length < pageSize then pageStep tsCol acc page
    else downloadRowsGo tsCol pageSize rest (pageStep tsCol acc page)

/-- download_rows from its initial state (header seeded from the existing CSV
header in append mode, empty in full-refresh mode). -/
def downloadRowsRun (tsCol : String) (pageSize : Nat) (pages : List (List SRow))
    (headerSeed : List String) : DLResult :=
  downloadRowsGo tsCol pageSize pages
    { header := headerSeed, kept := [], written := [], latest := none, opened := false }

/-- f-string %04d zero padding of a year. -/
def pad4 (n : Nat) : String :=
  let s := toString n
  if s.length < 4 then String.mk (List.replicate (4 - s.length) '0') ++ s else s

/-- start_iso for a year: "YYYY-01-01T00:00:00". -/
def yearStartIso (year : Nat) : String := pad4 year ++ "-01-01T00:00:00"

/-- The per-year inputs process_year observes from the sidecar metadata, the
existing CSV and the remote API. -/
structure YearEnv where
  /-- csv_path.exists() and st_size > 0. -/
  csvExists : Bool
  /-- count_local_rows(csv_path). -/
  localCount : Nat
  /-- The sidecar metadata matches this dataset_id, ts_column and year. -/
  metaMatch : Bool
  /-- meta.get("last_ts"). -/
  metaLastTs : Option String
  /-- read_last_timestamp_from_csv result. -/
  csvLastTs : Option String
  /-- ts_column in existing_header. -/
  tsInHeader : Bool
  /-- read_csv_header of the existing file ([] when the file is absent). -/
  existingHeader : List String
  /-- count_rows over the where clause of this run. -/
  countResult : Int
  /-- The successive pages request_page returns during download_rows. -/
  pages : List (List SRow)

/-- The stored cursor process_year starts from: the sidecar metadata cursor when
the sidecar matches, else (when that is falsy) the timestamp of the last CSV
row, when the file exists and has the timestamp column. -/
def effLastTs (env : YearEnv) : Option String :=
  let m := if env.metaMatch then env.metaLastTs else none
  if pyFalsyOpt m ∧ env.csvExists ∧ env.tsInHeader then env.csvLastTs else m

/-- Outcome of process_year for one year. -/
structure YearResult where
  /-- The outcome mode written to the sidecar metadata. -/
  mode : String
  /-- final_last_ts: the persisted cursor after this attempt. -/
  lastTs : Option String
  rowsWritten : Nat
  finalCount : Nat
  /-- inclusive_lower passed to build_where_clause. -/
  inclusiveUsed : Bool
  /-- The where clause sent with every count and page request of this run. -/
  whereUsed : String
  /-- The cleaned remote rows fetched and written during this run. -/
  kept : List SRow
  written : List SRow
  trace : List FsEvent

/-- process_year: the current year is refreshed incrementally from the stored
cursor (append), prior years by count comparison and, on mismatch, a full
rewrite; a prior year whose remote count is 0 gets an empty file written at the
canonical path. All writes of download_rows open the canonical CSV path
directly ("a" or "w"); the trace records them against the canonical slot. -/
def processYear (tsCol : String) (pageSize : Nat) (year currentYear : Nat)
    (env : YearEnv) : YearResult :=
  let startIso := yearStartIso year
  let endIso := yearStartIso (year + 1)
  let lastTs := effLastTs env
  if year = currentYear then
    let lower := pyOrStr lastTs startIso
    let inclusive := lastTs.isNone
    let whereClause := buildWhereClause tsCol lower endIso inclusive
    if env.countResult = 0 then
      { mode := "no_new_rows", lastTs := lastTs, rowsWritten := 0,
        finalCount := env.localCount, inclusiveUsed := inclusive,
        whereUsed := whereClause, kept := [], written := [], trace := [] }
    else
      let dl := downloadRowsRun tsCol pageSize env.pages env.existingHeader
      { mode := "incremental", lastTs := pyOrOptStr dl.latest lastTs,
        rowsWritten := dl.written.length,
        finalCount := env.localCount + dl.written.length,
        inclusiveUsed := inclusive, whereUsed := whereClause,
        kept := dl.kept, written := dl.written,
        trace := if dl.opened then [.appendCanonical dl.written.length] else [] }
  else
    let whereClause := buildWhereClause tsCol startIso endIso true
    if env.countResult = env.localCount ∧ 0 < env.countResult then
      { mode := "match",
        lastTs := if env.csvExists ∧ env.tsInHeader then env.csvLastTs else none,
        rowsWritten := 0, finalCount := env.localCount, inclusiveUsed := true,
        whereUsed := whereClause, kept := [], written := [], trace := [] }
    else if env.countResult = 0 then
      { mode := "empty", lastTs := none, rowsWritten := 0, finalCount := 0,
        inclusiveUsed := true, whereUsed := whereClause, kept := [], written := [],
        trace := [.writeCanonical 0] }
    else
      let dl := downloadRowsRun tsCol pageSize env.pages []
      { mode := "full_refresh", lastTs := dl.latest,
        rowsWritten := dl.written.length, finalCount := dl.written.length,
        inclusiveUsed := true, whereUsed := whereClause,
        kept := dl.kept, written := dl.written,
        trace := if dl.opened then [.writeCanonical dl.written.length] else [] }

/-- The lower-bound side of the where clause, as the server evaluates it on a
row timestamp t. -/
def lowerBoundOk (lower : String) (inclusive : Bool) (t : String) : Prop :=
  if inclusive then lower ≤ t else lower < t

/-! ## Helper lemmas -/

theorem auditFold_count (l : List (List String)) :
    ∀ (n : Nat) (g : List (List String × Nat)), (l.foldl auditFold (n, g)).1 = n + l.length := by
  induction l with
  | nil => intro n g; simp
  | cons r t ih =>
    intro n g
    simp only [List.foldl_cons, List.length_cons]
    rw [ih]
    simp [auditFold]
    omega

/-! ## C5: completeness-check failure -/

/-- C5: for every month partition, if any of the three completeness checks
fails (no row on the first day, no row on the last day, or the number of
distinct days with data differs from the number of days in the month), the task
is classified "incomplete", any existing canonical file is deleted, and no new
canonical file is written (afterwards no file exists at the canonical path, and
the temporary path is clean as well). -/
theorem c5_incomplete_on_check_failure :
    ∀ (year : Int) (month : Nat) (force vd : Bool) (env : MonthEnv) (fs : Files),
    (¬env.hasFirstDay ∨ ¬env.hasLastDay ∨ env.uniqueDays ≠ lastDayOfMonth year month) →
    (processTask year month force vd env fs).1 = "incomplete" ∧
      (runEvents fs (processTask year month force vd env fs).2).canonical = none ∧
      (runEvents fs (processTask year month force vd env fs).2).tmp = none := by
  intro year month force vd env fs h
  unfold processTask
  split_ifs with h1 <;> exact ⟨rfl, rfl, rfl⟩

theorem c5_incomplete_on_check_failure_witness :
    (¬false ∨ ¬true ∨ (29 : Nat) ≠ lastDayOfMonth 2023 6) ∧
      (processTask 2023 6 false false ⟨100, false, true, 29, 0, 0, 0⟩ ⟨some 7, none⟩).1
        = "incomplete" ∧
      (runEvents ⟨some 7, none⟩
        (processTask 2023 6 false false ⟨100, false, true, 29, 0, 0, 0⟩ ⟨some 7, none⟩).2).canonical
        = none ∧
      (runEvents ⟨some 7, none⟩
        (processTask 2023 6 false false ⟨100, false, true, 29, 0, 0, 0⟩ ⟨some 7, none⟩).2).tmp
        = none :=
  ⟨by decide,
    c5_incomplete_on_check_failure 2023 6 false false ⟨100, false, true, 29, 0, 0, 0⟩
      ⟨some 7, none⟩ (by decide)⟩

/-! ### Branch equations for processTask -/

theorem processTask_nodata {year : Int} {month : Nat} {force vd : Bool} {env : MonthEnv}
    {fs : Files} (h1 : env.totalRows ≤ 0) :
    processTask year month force vd env fs =
      ("incomplete", [.unlinkTmp, .unlinkCanonical]) := by
  unfold processTask; rw [if_pos h1]

theorem processTask_checksfail {year : Int} {month : Nat} {force vd : Bool} {env : MonthEnv}
    {fs : Files} (h1 : ¬env.totalRows ≤ 0)
    (h2 : ¬env.hasFirstDay ∨ ¬env.hasLastDay ∨ env.uniqueDays ≠ lastDayOfMonth year month) :
    processTask year month force vd env fs =
      ("incomplete", [.unlinkTmp, .unlinkCanonical]) := by
  unfold processTask; rw [if_neg h1, if_pos h2]

theorem processTask_skipped {year : Int} {month : Nat} {force vd : Bool} {env : MonthEnv}
    {fs : Files} (h1 : ¬env.totalRows ≤ 0)
    (h2 : ¬(¬env.hasFirstDay ∨ ¬env.hasLastDay ∨ env.uniqueDays ≠ lastDayOfMonth year month))
    (h3 : fs.canonical.isSome ∧ ¬force ∧ ((fs.canonical.getD 0 : Int) = env.totalRows)) :
    processTask year month force vd env fs = ("skipped", []) := by
  unfold processTask; rw [if_neg h1, if_neg h2, if_pos h3]

theorem processTask_zero {year : Int} {month : Nat} {force vd : Bool} {env : MonthEnv}
    {fs : Files} (h1 : ¬env.totalRows ≤ 0)
    (h2 : ¬(¬env.hasFirstDay ∨ ¬env.hasLastDay ∨ env.uniqueDays ≠ lastDayOfMonth year month))
    (h3 : ¬(fs.canonical.isSome ∧ ¬force ∧ ((fs.canonical.getD 0 : Int) = env.totalRows)))
    (h4 : env.downloadedRows = 0) :
    processTask year month force vd env fs =
      ("incomplete",
        [.unlinkTmp, .writeTmp env.downloadedRows, .unlinkTmp, .unlinkCanonical]) := by
  unfold processTask; rw [if_neg h1, if_neg h2, if_neg h3, if_pos h4]

theorem processTask_mismatch {year : Int} {month : Nat} {force vd : Bool} {env : MonthEnv}
    {fs : Files} (h1 : ¬env.totalRows ≤ 0)
    (h2 : ¬(¬env.hasFirstDay ∨ ¬env.hasLastDay ∨ env.uniqueDays ≠ lastDayOfMonth year month))
    (h3 : ¬(fs.canonical.isSome ∧ ¬force ∧ ((fs.canonical.getD 0 : Int) = env.totalRows)))
    (h4 : ¬env.downloadedRows = 0) (h5 : (env.downloadedRows : Int) ≠ env.totalRows) :
    processTask year month force vd env fs =
      ("errors", [.unlinkTmp, .writeTmp env.downloadedRows, .unlinkTmp]) := by
  unfold processTask; rw [if_neg h1, if_neg h2, if_neg h3, if_neg h4, if_pos h5]

theorem processTask_auditfail {year : Int} {month : Nat} {force vd : Bool} {env : MonthEnv}
    {fs : Files} (h1 : ¬env.totalRows ≤ 0)
    (h2 : ¬(¬env.hasFirstDay ∨ ¬env.hasLastDay ∨ env.uniqueDays ≠ lastDayOfMonth year month))
    (h3 : ¬(fs.canonical.isSome ∧ ¬force ∧ ((fs.canonical.getD 0 : Int) = env.totalRows)))
    (h4 : ¬env.downloadedRows = 0) (h5 : ¬(env.downloadedRows : Int) ≠ env.totalRows)
    (h6 : vd ∧ env.scannedRows ≠ env.downloadedRows) :
    processTask year month force vd env fs =
      ("errors", [.unlinkTmp, .writeTmp env.downloadedRows, .unlinkTmp]) := by
  unfold processTask; rw [if_neg h1, if_neg h2, if_neg h3, if_neg h4, if_neg h5, if_pos h6]

theorem processTask_downloaded {year : Int} {month : Nat} {force vd : Bool} {env : MonthEnv}
    {fs : Files} (h1 : ¬env.totalRows ≤ 0)
    (h2 : ¬(¬env.hasFirstDay ∨ ¬env.hasLastDay ∨ env.uniqueDays ≠ lastDayOfMonth year month))
    (h3 : ¬(fs.canonical.isSome ∧ ¬force ∧ ((fs.canonical.getD 0 : Int) = env.totalRows)))
    (h4 : ¬env.downloadedRows = 0) (h5 : ¬(env.downloadedRows : Int) ≠ env.totalRows)
    (h6 : ¬(vd ∧ env.scannedRows ≠ env.downloadedRows)) :
    processTask year month force vd env fs =
      ("downloaded", [.unlinkTmp, .writeTmp env.downloadedRows, .rename]) := by
  unfold processTask; rw [if_neg h1, if_neg h2, if_neg h3, if_neg h4, if_neg h5, if_neg h6]

/-! ## C2: committed row count equals the remote count -/

/-- C2, amended: a monthly task that ends "downloaded" commits exactly the rows
the fetcher wrote, and that number equals the Remote Count Oracle count taken at
the start of the task; a task whose written row count differs from the expected
count never commits (the canonical path is left unchanged or deleted, never
renamed-to); on the download path such a mismatch deletes the temporary file
and ends in the "errors" category when some rows were written — but in the
"incomplete" category when zero rows were written. -/
theorem c2_downloaded_matches_remote_count :
    ∀ (year : Int) (month : Nat) (force vd : Bool) (env : MonthEnv) (fs : Files),
    ((processTask year month force vd env fs).1 = "downloaded" →
      (runEvents fs (processTask year month force vd env fs).2).canonical
          = some env.downloadedRows
        ∧ (env.downloadedRows : Int) = env.totalRows)
    ∧ ((env.downloadedRows : Int) ≠ env.totalRows →
      (processTask year month force vd env fs).1 ≠ "downloaded"
        ∧ ((runEvents fs (processTask year month force vd env fs).2).canonical = fs.canonical
            ∨ (runEvents fs (processTask year month force vd env fs).2).canonical = none))
    ∧ ((env.downloadedRows : Int) ≠ env.totalRows → 0 < env.totalRows →
      env.hasFirstDay ∧ env.hasLastDay ∧ env.uniqueDays = lastDayOfMonth year month →
      ¬(fs.canonical.isSome ∧ ¬force ∧ ((fs.canonical.getD 0 : Int) = env.totalRows)) →
      (runEvents fs (processTask year month force vd env fs).2).tmp = none
        ∧ (processTask year month force vd env fs).1
            = (if env.downloadedRows = 0 then "incomplete" else "errors")) := by
  intro year month force vd env fs
  by_cases h1 : env.totalRows ≤ 0
  · rw [processTask_nodata h1]
    exact ⟨fun hst => by simp at hst, fun _ => ⟨by simp, Or.inr rfl⟩,
      fun _ hpos _ _ => absurd h1 (by omega)⟩
  by_cases h2 : ¬env.hasFirstDay ∨ ¬env.hasLastDay ∨ env.uniqueDays ≠ lastDayOfMonth year month
  · rw [processTask_checksfail h1 h2]
    refine ⟨fun hst => by simp at hst, fun _ => ⟨by simp, Or.inr rfl⟩, ?_⟩
    intro _ _ hchecks _
    rcases h2 with hc | hc | hc
    exacts [absurd hchecks.1 hc, absurd hchecks.2.1 hc, absurd hchecks.2.2 hc]
  by_cases h3 : fs.canonical.isSome ∧ ¬force ∧ ((fs.canonical.getD 0 : Int) = env.totalRows)
  · rw [processTask_skipped h1 h2 h3]
    exact ⟨fun hst => by simp at hst, fun _ => ⟨by simp, Or.inl rfl⟩,
      fun _ _ _ hskip => absurd h3 hskip⟩
  by_cases h4 : env.downloadedRows = 0
  · rw [processTask_zero h1 h2 h3 h4]
    exact ⟨fun hst => by simp at hst, fun _ => ⟨by simp, Or.inr rfl⟩,
      fun _ _ _ _ => ⟨rfl, by simp [h4]⟩⟩
  by_cases h5 : (env.downloadedRows : Int) ≠ env.totalRows
  · rw [processTask_mismatch h1 h2 h3 h4 h5]
    exact ⟨fun hst => by simp at hst, fun _ => ⟨by simp, Or.inl rfl⟩,
      fun _ _ _ _ => ⟨rfl, by simp [h4]⟩⟩
  have h5e : (env.downloadedRows : Int) = env.totalRows := not_not.mp h5
  by_cases h6 : vd ∧ env.scannedRows ≠ env.downloadedRows
  · rw [processTask_auditfail h1 h2 h3 h4 h5 h6]
    exact ⟨fun hst => by simp at hst, fun hmis => absurd h5e hmis,
      fun hmis _ _ _ => absurd h5e hmis⟩
  · rw [processTask_downloaded h1 h2 h3 h4 h5 h6]
    exact ⟨fun _ => ⟨rfl, h5e⟩, fun hmis => absurd h5e hmis,
      fun hmis _ _ _ => absurd h5e hmis⟩

theorem c2_downloaded_matches_remote_count_witness :
    ((runEvents ⟨none, none⟩
        (processTask 2024 2 false false ⟨9, true, true, 29, 9, 9, 0⟩ ⟨none, none⟩).2).canonical
      = some 9 ∧ ((9 : Nat) : Int) = (9 : Int)) :=
  (c2_downloaded_matches_remote_count 2024 2 false false ⟨9, true, true, 29, 9, 9, 0⟩
    ⟨none, none⟩).1 (by decide)

/-- C2, counterexample to the claim as stated: a task whose written row count
(0) differs from the expected remote count (5) ends in the "incomplete"
category, not the "errors" category. -/
theorem c2_zero_rows_not_errors :
    ((0 : Nat) : Int) ≠ (5 : Int)
    ∧ (processTask 2023 4 false false ⟨5, true, true, 30, 0, 0, 0⟩ ⟨none, none⟩).1
        = "incomplete"
    ∧ (processTask 2023 4 false false ⟨5, true, true, 30, 0, 0, 0⟩ ⟨none, none⟩).1
        ≠ "errors" := by decide

/-! ## C9: duplicate-audit gating -/

/-- C9: with the duplicate audit enabled, a task commits only when the rows
scanned from the freshly written temporary file equal the rows the fetcher
reported writing, and what is committed is exactly the fetched content; on the
download path a scan mismatch ends the task in the "errors" category, deletes
the temporary file, and leaves the canonical path untouched (no commit). The
audit itself is a pure scan: its rows_scanned result is the number of data
records in the file it reads (every record after the header). -/
theorem c9_audit_gates_commit :
    ∀ (year : Int) (month : Nat) (force : Bool) (env : MonthEnv) (fs : Files),
    ((processTask year month force true env fs).1 = "downloaded" →
      env.scannedRows = env.downloadedRows
        ∧ (runEvents fs (processTask year month force true env fs).2).canonical
            = some env.downloadedRows)
    ∧ (0 < env.totalRows →
      env.hasFirstDay ∧ env.hasLastDay ∧ env.uniqueDays = lastDayOfMonth year month →
      ¬(fs.canonical.isSome ∧ ¬force ∧ ((fs.canonical.getD 0 : Int) = env.totalRows)) →
      (env.downloadedRows : Int) = env.totalRows →
      env.scannedRows ≠ env.downloadedRows →
      (processTask year month force true env fs).1 = "errors"
        ∧ (runEvents fs (processTask year month force true env fs).2).tmp = none
        ∧ (runEvents fs (processTask year month force true env fs).2).canonical = fs.canonical)
    ∧ (∀ (content : List (List String)) (limit : Nat),
      (inspectDuplicateRows content limit).1 = (content.drop 1).length) := by
  intro year month force env fs
  refine ⟨?_, ?_, ?_⟩
  · by_cases h1 : env.totalRows ≤ 0
    · rw [processTask_nodata h1]; exact fun hst => by simp at hst
    by_cases h2 : ¬env.hasFirstDay ∨ ¬env.hasLastDay ∨
        env.uniqueDays ≠ lastDayOfMonth year month
    · rw [processTask_checksfail h1 h2]; exact fun hst => by simp at hst
    by_cases h3 : fs.canonical.isSome ∧ ¬force ∧ ((fs.canonical.getD 0 : Int) = env.totalRows)
    · rw [processTask_skipped h1 h2 h3]; exact fun hst => by simp at hst
    by_cases h4 : env.downloadedRows = 0
    · rw [processTask_zero h1 h2 h3 h4]; exact fun hst => by simp at hst
    by_cases h5 : (env.downloadedRows : Int) ≠ env.totalRows
    · rw [processTask_mismatch h1 h2 h3 h4 h5]; exact fun hst => by simp at hst
    by_cases h6 : (true : Bool) ∧ env.scannedRows ≠ env.downloadedRows
    · rw [processTask_auditfail h1 h2 h3 h4 h5 h6]; exact fun hst => by simp at hst
    · rw [processTask_downloaded h1 h2 h3 h4 h5 h6]
      exact fun _ => ⟨not_not.mp (fun hn => h6 ⟨rfl, hn⟩), rfl⟩
  · intro hpos hchecks hskip heq hscan
    have h1 : ¬env.totalRows ≤ 0 := by omega
    have h2 : ¬(¬env.hasFirstDay ∨ ¬env.hasLastDay ∨
        env.uniqueDays ≠ lastDayOfMonth year month) := by
      intro hc
      rcases hc with hc | hc | hc
      exacts [absurd hchecks.1 hc, absurd hchecks.2.1 hc, absurd hchecks.2.2 hc]
    have h4 : ¬env.downloadedRows = 0 := by
      intro h0; rw [h0] at heq; omega
    rw [processTask_auditfail h1 h2 hskip h4 (not_not.mpr heq) ⟨rfl, hscan⟩]
    exact ⟨rfl, rfl, rfl⟩
  · intro content limit
    cases content with
    | nil => rfl
    | cons header rows =>
      show (inspectDuplicateRows (header :: rows) limit).1 = rows.length
      unfold inspectDuplicateRows
      simp only
      rw [auditFold_count]
      simp

theorem c9_audit_gates_commit_witness :
    ((processTask 2024 3 false true ⟨6, true, true, 31, 6, 4, 0⟩ ⟨none, none⟩).1 = "errors"
      ∧ (runEvents ⟨none, none⟩
          (processTask 2024 3 false true ⟨6, true, true, 31, 6, 4, 0⟩ ⟨none, none⟩).2).tmp
          = none
      ∧ (runEvents ⟨none, none⟩
          (processTask 2024 3 false true ⟨6, true, true, 31, 6, 4, 0⟩ ⟨none, none⟩).2).canonical
          = (⟨none, none⟩ : Files).canonical) :=
  (c9_audit_gates_commit 2024 3 false ⟨6, true, true, 31, 6, 4, 0⟩ ⟨none, none⟩).2.1
    (by decide) (by decide) (by decide) (by decide) (by decide)

/-! ## C6: zero remote count -/

/-- C6, amended: a monthly task whose remote count is 0 ends in the
"incomplete" ("no data") outcome and afterwards no file exists at its canonical
path or temporary path; a prior-year task whose remote count is 0 ends in mode
"empty", but rather than leaving no file, it writes a zero-row (empty) file at
the canonical path, creating it if absent and truncating any prior content. -/
theorem c6_zero_count :
    (∀ (year : Int) (month : Nat) (force vd : Bool) (env : MonthEnv) (fs : Files),
      env.totalRows = 0 →
        (processTask year month force vd env fs).1 = "incomplete"
        ∧ (runEvents fs (processTask year month force vd env fs).2).canonical = none
        ∧ (runEvents fs (processTask year month force vd env fs).2).tmp = none)
    ∧ (∀ (tsCol : String) (pageSize year currentYear : Nat) (env : YearEnv) (fs : Files),
      year ≠ currentYear → env.countResult = 0 →
        (processYear tsCol pageSize year currentYear env).mode = "empty"
        ∧ (runEvents fs (processYear tsCol pageSize year currentYear env).trace).canonical
            = some 0) := by
  constructor
  · intro year month force vd env fs h0
    rw [processTask_nodata (by omega)]
    exact ⟨rfl, rfl, rfl⟩
  · intro tsCol pageSize year currentYear env fs hne h0
    simp only [processYear]
    rw [if_neg hne, if_neg (fun hc => by rw [h0] at hc; exact absurd hc.2 (by norm_num)),
      if_pos h0]
    exact ⟨rfl, rfl⟩

theorem c6_zero_count_witness :
    ((processTask 2023 7 false false ⟨0, false, false, 0, 0, 0, 0⟩ ⟨some 4, none⟩).1
        = "incomplete"
      ∧ (runEvents ⟨some 4, none⟩
          (processTask 2023 7 false false ⟨0, false, false, 0, 0, 0, 0⟩ ⟨some 4, none⟩).2).canonical
          = none
      ∧ (runEvents ⟨some 4, none⟩
          (processTask 2023 7 false false ⟨0, false, false, 0, 0, 0, 0⟩ ⟨some 4, none⟩).2).tmp
          = none)
    ∧ ((processYear "u" 9 2021 2024 ⟨true, 5, false, none, none, false, [], 0, []⟩).mode
        = "empty"
      ∧ (runEvents ⟨some 5, none⟩
          (processYear "u" 9 2021 2024 ⟨true, 5, false, none, none, false, [], 0, []⟩).trace).canonical
          = some 0) :=
  ⟨c6_zero_count.1 2023 7 false false ⟨0, false, false, 0, 0, 0, 0⟩ ⟨some 4, none⟩ (by decide),
    c6_zero_count.2 "u" 9 2021 2024 ⟨true, 5, false, none, none, false, [], 0, []⟩
      ⟨some 5, none⟩ (by decide) (by decide)⟩

/-- C6, counterexample to the claim as stated: in the yearly prior-year path a
zero remote count leaves a (zero-row) file present at the canonical path — the
canonical slot holds a file afterwards, even when none existed before. -/
theorem c6_yearly_zero_leaves_file :
    (processYear "u" 9 2021 2024 ⟨false, 0, false, none, none, false, [], 0, []⟩).mode
      = "empty"
    ∧ (runEvents ⟨none, none⟩
        (processYear "u" 9 2021 2024 ⟨false, 0, false, none, none, false, [], 0, []⟩).trace).canonical
        = some 0
    ∧ (runEvents ⟨none, none⟩
        (processYear "u" 9 2021 2024 ⟨false, 0, false, none, none, false, [], 0, []⟩).trace).canonical
        ≠ none := by
  refine ⟨rfl, rfl, ?_⟩
  simp only [processYear]
  decide

/-! ## C1: atomic commit via temporary sibling -/

/-- C1, amended: in the monthly sync script the canonical path is never written
directly — its trace contains no direct write or append at the canonical path,
and a rename appears only in a task that ends "downloaded", whose written row
count was validated against the remote count. The yearly refresh script, by
contrast, uses no temporary sibling at all: its trace never touches a temporary
path and never renames — every write it performs lands directly at the
canonical path. -/
theorem c1_monthly_atomic_yearly_direct :
    (∀ (year : Int) (month : Nat) (force vd : Bool) (env : MonthEnv) (fs : Files),
      (∀ n, FsEvent.writeCanonical n ∉ (processTask year month force vd env fs).2
        ∧ FsEvent.appendCanonical n ∉ (processTask year month force vd env fs).2)
      ∧ (FsEvent.rename ∈ (processTask year month force vd env fs).2 →
          (processTask year month force vd env fs).1 = "downloaded"
          ∧ (env.downloadedRows : Int) = env.totalRows))
    ∧ (∀ (tsCol : String) (pageSize year currentYear : Nat) (env : YearEnv),
      (∀ n, FsEvent.writeTmp n ∉ (processYear tsCol pageSize year currentYear env).trace)
      ∧ FsEvent.rename ∉ (processYear tsCol pageSize year currentYear env).trace
      ∧ FsEvent.unlinkTmp ∉ (processYear tsCol pageSize year currentYear env).trace) := by
  constructor
  · intro year month force vd env fs
    by_cases h1 : env.totalRows ≤ 0
    · rw [processTask_nodata h1]
      exact ⟨fun n => ⟨by simp, by simp⟩, fun hr => by simp at hr⟩
    by_cases h2 : ¬env.hasFirstDay ∨ ¬env.hasLastDay ∨
        env.uniqueDays ≠ lastDayOfMonth year month
    · rw [processTask_checksfail h1 h2]
      exact ⟨fun n => ⟨by simp, by simp⟩, fun hr => by simp at hr⟩
    by_cases h3 : fs.canonical.isSome ∧ ¬force ∧ ((fs.canonical.getD 0 : Int) = env.totalRows)
    · rw [processTask_skipped h1 h2 h3]
      exact ⟨fun n => ⟨by simp, by simp⟩, fun hr => by simp at hr⟩
    by_cases h4 : env.downloadedRows = 0
    · rw [processTask_zero h1 h2 h3 h4]
      exact ⟨fun n => ⟨by simp, by simp⟩, fun hr => by simp at hr⟩
    by_cases h5 : (env.downloadedRows : Int) ≠ env.totalRows
    · rw [processTask_mismatch h1 h2 h3 h4 h5]
      exact ⟨fun n => ⟨by simp, by simp⟩, fun hr => by simp at hr⟩
    by_cases h6 : vd ∧ env.scannedRows ≠ env.downloadedRows
    · rw [processTask_auditfail h1 h2 h3 h4 h5 h6]
      exact ⟨fun n => ⟨by simp, by simp⟩, fun hr => by simp at hr⟩
    · rw [processTask_downloaded h1 h2 h3 h4 h5 h6]
      exact ⟨fun n => ⟨by simp, by simp⟩, fun _ => ⟨rfl, not_not.mp h5⟩⟩
  · intro tsCol pageSize year currentYear env
    simp only [processYear]
    split_ifs <;> exact ⟨fun n => by simp, by simp, by simp⟩

theorem c1_monthly_atomic_yearly_direct_witness :
    ((processTask 2024 1 false false ⟨4, true, true, 31, 4, 4, 0⟩ ⟨none, none⟩).1
        = "downloaded"
      ∧ ((4 : Nat) : Int) = (⟨4, true, true, 31, 4, 4, 0⟩ : MonthEnv).totalRows)
    ∧ FsEvent.rename ∉ (processYear "t" 9 2020 2024
        ⟨false, 0, false, none, none, false, [], 0, []⟩).trace :=
  ⟨(c1_monthly_atomic_yearly_direct.1 2024 1 false false ⟨4, true, true, 31, 4, 4, 0⟩
      ⟨none, none⟩).2 (by decide),
    (c1_monthly_atomic_yearly_direct.2 "t" 9 2020 2024
      ⟨false, 0, false, none, none, false, [], 0, []⟩).2.1⟩

/-- C1, counterexample to the claim as stated: the yearly (cursor-engine) full
refresh of a prior year writes its rows directly at the canonical path — its
whole trace is one direct canonical write, with no temporary-path write and no
rename anywhere. -/
theorem c1_yearly_writes_canonical_directly :
    (processYear "t" 50000 2023 2024
        ⟨false, 0, false, none, none, false, [], 3,
          [[[("t", "b1"), ("v", "1")], [("t", "b2"), ("v", "2")], [("t", "b3"), ("v", "3")]]]⟩).trace
      = [FsEvent.writeCanonical 3]
    ∧ (processYear "t" 50000 2023 2024
        ⟨false, 0, false, none, none, false, [], 3,
          [[[("t", "b1"), ("v", "1")], [("t", "b2"), ("v", "2")], [("t", "b3"), ("v", "3")]]]⟩).mode
      = "full_refresh" := by
  exact ⟨rfl, rfl⟩

/-! ## C4: retry exhaustion behavior -/

theorem requestJsonGo_exhaust {α : Type} :
    ∀ (rs : List (HttpAttempt α)) (maxR attempt : Nat) (sleeps : List Nat),
      maxR ≤ attempt + rs.length → (∀ r ∈ rs, isRetryable r = true) →
      ∃ msg, (requestJsonGo maxR attempt rs sleeps).1 = Except.error msg := by
  intro rs
  induction rs with
  | nil =>
    intro maxR attempt sleeps hlen _hall
    unfold requestJsonGo
    rw [if_neg (by simp at hlen; omega)]
    exact ⟨_, rfl⟩
  | cons r rest ih =>
    intro maxR attempt sleeps hlen hall
    by_cases hlt : attempt < maxR
    · cases r with
      | netError =>
        unfold requestJsonGo
        rw [if_pos hlt]
        by_cases hge : attempt + 1 ≥ maxR
        · rw [if_pos hge]; exact ⟨_, rfl⟩
        · rw [if_neg hge]
          exact ih maxR (attempt + 1) _ (by simp at hlen ⊢; omega)
            (fun x hx => hall x (List.mem_cons_of_mem _ hx))
      | resp code payload =>
        have hcode : code = 429 := by
          have hr := hall _ (List.mem_cons_self _ _)
          simpa [isRetryable] using hr
        unfold requestJsonGo
        rw [if_pos hlt, if_pos hcode]
        exact ih maxR (attempt + 1) _ (by simp at hlen ⊢; omega)
          (fun x hx => hall x (List.mem_cons_of_mem _ hx))
    · cases r with
      | netError => unfold requestJsonGo; rw [if_neg hlt]; exact ⟨_, rfl⟩
      | resp code payload => unfold requestJsonGo; rw [if_neg hlt]; exact ⟨_, rfl⟩

theorem requestPageGo_netexhaust {α : Type} :
    ∀ (rs : List (HttpAttempt α)) (maxR attempt : Nat) (sleeps : List Nat),
      attempt < maxR → maxR ≤ attempt + rs.length → (∀ r ∈ rs, r = HttpAttempt.netError) →
      ∃ msg, (requestPageGo maxR attempt rs sleeps).1 = Except.error msg := by
  intro rs
  induction rs with
  | nil =>
    intro maxR attempt sleeps hlt hlen _
    simp at hlen
    omega
  | cons r rest ih =>
    intro maxR attempt sleeps hlt hlen hall
    have hr : r = HttpAttempt.netError := hall _ (List.mem_cons_self _ _)
    subst hr
    unfold requestPageGo
    rw [if_pos hlt]
    by_cases hge : attempt + 1 ≥ maxR
    · rw [if_pos hge]; exact ⟨_, rfl⟩
    · rw [if_neg hge]
      exact ih maxR (attempt + 1) _ (by omega) (by simp at hlen ⊢; omega)
        (fun x hx => hall x (List.mem_cons_of_mem _ hx))

/-- C4, amended: both transient network failures and HTTP 429 responses are
retried with backoff min(2 ** attempt, 60) up to the ceiling of 5 attempts, and
the shared helper request_json always raises once retries are exhausted — it
never returns a normal value. The yearly script's request_page raises after
exhausting retries on network failures, but after exhausting retries on HTTP
429 responses it returns an ordinary empty page instead of raising. -/
theorem c4_retry_exhaustion :
    (∀ (rs : List (HttpAttempt Unit)), 5 ≤ rs.length → (∀ r ∈ rs, isRetryable r = true) →
      ∃ msg, (requestJson rs).1 = Except.error msg)
    ∧ (requestJson (List.replicate 5 (HttpAttempt.resp 429 (Payload.other : Payload Unit)))
        = (Except.error "Request failed after max retries.", [2, 4, 8, 16, 32]))
    ∧ (∀ (rs : List (HttpAttempt Unit)), 5 ≤ rs.length →
        (∀ r ∈ rs, r = HttpAttempt.netError) →
      ∃ msg, (requestPage rs).1 = Except.error msg)
    ∧ (requestPage (List.replicate 5 (HttpAttempt.resp 429 (Payload.other : Payload Unit)))
        = (Except.ok [], [2, 4, 8, 16, 32])) := by
  refine ⟨?_, rfl, ?_, rfl⟩
  · intro rs hlen hall
    exact requestJsonGo_exhaust rs 5 0 [] (by omega) hall
  · intro rs hlen hall
    exact requestPageGo_netexhaust rs 5 0 [] (by norm_num) (by omega) hall

theorem c4_retry_exhaustion_witness :
    (∃ msg, (requestJson (List.replicate 5 (HttpAttempt.netError : HttpAttempt Unit))).1
        = Except.error msg)
    ∧ (∃ msg, (requestPage (List.replicate 5 (HttpAttempt.netError : HttpAttempt Unit))).1
        = Except.error msg) :=
  ⟨c4_retry_exhaustion.1 (List.replicate 5 HttpAttempt.netError) (by decide) (by decide),
    c4_retry_exhaustion.2.2.1 (List.replicate 5 HttpAttempt.netError) (by decide) (by decide)⟩

/-- C4, counterexample to the claim as stated: request_page, after exhausting
its 5 retries on consecutive HTTP 429 responses (with the full backoff sequence
min(2 ** attempt, 60) = 2, 4, 8, 16, 32), returns the normal value of an empty
page instead of raising a terminal error. -/
theorem c4_page_empty_after_429_exhaustion :
    (requestPage (List.replicate 5 (HttpAttempt.resp 429 (Payload.other : Payload Unit)))).1
      = Except.ok []
    ∧ (requestPage (List.replicate 5 (HttpAttempt.resp 429 (Payload.other : Payload Unit)))).2
      = [2, 4, 8, 16, 32] :=
  ⟨rfl, rfl⟩

/-! ## C3: malformed count responses -/

/-- C3, amended: for the count operation, a structurally valid but empty
response yields 0 in both scripts; a wrong payload shape or an explicit
not-found signal raises at the request layer for both scripts; and a count
value that is absent or non-numeric raises in the yearly script's count — but
in the monthly turnstile script it is silently treated as a count of 0. -/
theorem c3_count_malformed :
    (countRowsT [] = 0 ∧ countRowsR [] = Except.ok 0)
    ∧ (∀ (first : JRow) (rest : List JRow), (countValueOf first).bind pyInt = none →
        countRowsT (first :: rest) = 0
        ∧ countRowsR (first :: rest) = Except.error "Malformed count response")
    ∧ (∀ (rest : List (HttpAttempt JRow)),
        (requestJsonGo 5 0 (HttpAttempt.resp 200 Payload.notFound :: rest) []).1
            = Except.error "SODA3 endpoint reported not_found"
        ∧ (requestJsonGo 5 0 (HttpAttempt.resp 200 Payload.other :: rest) []).1
            = Except.error "Unexpected payload type"
        ∧ (requestPageGo 5 0 (HttpAttempt.resp 200 Payload.notFound :: rest) []).1
            = Except.error "Dataset not found or inaccessible"
        ∧ (requestPageGo 5 0 (HttpAttempt.resp 200 Payload.other :: rest) []).1
            = Except.error "Unexpected payload structure") := by
  refine ⟨⟨rfl, rfl⟩, ?_, fun rest => ⟨rfl, rfl, rfl, rfl⟩⟩
  intro first rest h
  simp [countRowsT, countRowsR, h]

theorem c3_count_malformed_witness :
    countRowsT [[("count", JValue.str "9x")]] = 0
    ∧ countRowsR [[("count", JValue.str "9x")]] = Except.error "Malformed count response" :=
  c3_count_malformed.2.1 [("count", JValue.str "9x")] [] rfl

/-- C3, counterexample to the claim as stated: the monthly turnstile count
operation receives a structurally valid row whose count value is the
non-numeric string "abc" and silently returns 0 — no error is raised — while
the yearly script's count raises on the same input. -/
theorem c3_monthly_count_swallows_malformed :
    countRowsT [[("count", JValue.str "abc")]] = 0
    ∧ countRowsR [[("count", JValue.str "abc")]]
        = Except.error "Malformed count response" :=
  ⟨rfl, rfl⟩

/-! ## Lemmas about the download page loop -/

theorem mem_of_getLast?_eq {α : Type} {l : List α} {a : α} (h : l.getLast? = some a) :
    a ∈ l := by
  rcases List.mem_getLast?_eq_getLast (Option.mem_def.mpr h) with ⟨hne, heq⟩
  rw [heq]
  exact List.getLast_mem hne

theorem str_nil_le (s : String) : "" ≤ s := by
  rw [String.le_iff_toList_le]
  exact List.nil_le

theorem keepFun_eq_some {tsCol : String} {row c : SRow} (h : keepFun tsCol row = some c) :
    cleanRow row = c ∧ ∃ t, rowGet c tsCol = some t ∧ t ≠ "" := by
  unfold keepFun at h
  split at h
  next t hg =>
    by_cases ht : t = ""
    · rw [if_pos ht] at h; cases h
    · rw [if_neg ht] at h
      injection h with h2
      subst h2
      exact ⟨rfl, t, hg, ht⟩
  next => cases h

theorem pageStep_latest {tsCol : String} {acc : DLResult} {page : List SRow} {t : String}
    (h : (pageStep tsCol acc page).latest = some t) :
    acc.latest = some t
      ∨ ∃ row ∈ page, rowGet (cleanRow row) tsCol = some t ∧ t ≠ "" := by
  simp only [pageStep] at h
  split at h
  next r hg =>
    obtain ⟨row, hrow, hk⟩ := List.mem_filterMap.mp (mem_of_getLast?_eq hg)
    obtain ⟨hcl, t2, ht2, hne⟩ := keepFun_eq_some hk
    have ht : t2 = t := by rw [h] at ht2; injection ht2 with h3; exact h3.symm
    subst ht
    exact Or.inr ⟨row, hrow, by rw [hcl]; exact ht2, hne⟩
  next => exact Or.inl h

theorem pageStep_kept {tsCol : String} {acc : DLResult} {page : List SRow} {r : SRow}
    (h : r ∈ (pageStep tsCol acc page).kept) :
    r ∈ acc.kept
      ∨ ∃ row ∈ page, cleanRow row = r ∧ ∃ t, rowGet r tsCol = some t ∧ t ≠ "" := by
  simp only [pageStep] at h
  rcases List.mem_append.mp h with h | h
  · exact Or.inl h
  · obtain ⟨row, hrow, hk⟩ := List.mem_filterMap.mp h
    obtain ⟨hcl, ht⟩ := keepFun_eq_some hk
    exact Or.inr ⟨row, hrow, hcl, ht⟩

theorem downloadRowsGo_latest {tsCol : String} {pageSize : Nat} :
    ∀ (pages : List (List SRow)) (acc : DLResult) (t : String),
      (downloadRowsGo tsCol pageSize pages acc).latest = some t →
      acc.latest = some t
        ∨ ∃ page ∈ pages, ∃ row ∈ page,
            rowGet (cleanRow row) tsCol = some t ∧ t ≠ "" := by
  intro pages
  induction pages with
  | nil => intro acc t h; exact Or.inl h
  | cons page rest ih =>
    intro acc t h
    unfold downloadRowsGo at h
    by_cases hemp : page.isEmpty
    · rw [if_pos hemp] at h; exact Or.inl h
    rw [if_neg hemp] at h
    by_cases hshort : page.length < pageSize
    · rw [if_pos hshort] at h
      rcases pageStep_latest h with h2 | ⟨row, hrow, hg, hne⟩
      · exact Or.inl h2
      · exact Or.inr ⟨page, List.mem_cons_self _ _, row, hrow, hg, hne⟩
    · rw [if_neg hshort] at h
      rcases ih _ t h with h2 | ⟨p2, hp2, row, hrow, hg, hne⟩
      · rcases pageStep_latest h2 with h3 | ⟨row, hrow, hg, hne⟩
        · exact Or.inl h3
        · exact Or.inr ⟨page, List.mem_cons_self _ _, row, hrow, hg, hne⟩
      · exact Or.inr ⟨p2, List.mem_cons_of_mem _ hp2, row, hrow, hg, hne⟩

theorem downloadRowsGo_kept {tsCol : String} {pageSize : Nat} :
    ∀ (pages : List (List SRow)) (acc : DLResult) (r : SRow),
      r ∈ (downloadRowsGo tsCol pageSize pages acc).kept →
      r ∈ acc.kept
        ∨ ∃ page ∈ pages, ∃ row ∈ page,
            cleanRow row = r ∧ ∃ t, rowGet r tsCol = some t ∧ t ≠ "" := by
  intro pages
  induction pages with
  | nil => intro acc r h; exact Or.inl h
  | cons page rest ih =>
    intro acc r h
    unfold downloadRowsGo at h
    by_cases hemp : page.isEmpty
    · rw [if_pos hemp] at h; exact Or.inl h
    rw [if_neg hemp] at h
    by_cases hshort : page.length < pageSize
    · rw [if_pos hshort] at h
      rcases pageStep_kept h with h2 | ⟨row, hrow, hg⟩
      · exact Or.inl h2
      · exact Or.inr ⟨page, List.mem_cons_self _ _, row, hrow, hg⟩
    · rw [if_neg hshort] at h
      rcases ih _ r h with h2 | ⟨p2, hp2, row, hrow, hg⟩
      · rcases pageStep_kept h2 with h3 | ⟨row, hrow, hg⟩
        · exact Or.inl h3
        · exact Or.inr ⟨page, List.mem_cons_self _ _, row, hrow, hg⟩
      · exact Or.inr ⟨p2, List.mem_cons_of_mem _ hp2, row, hrow, hg⟩

/-! ## C7: cursor monotonicity -/

/-- C7: on the cursor-based current-year partition, assuming the remote honors
the where clause the run sends (every fetched row's timestamp satisfies the
computed lower bound, which is strict whenever a cursor is stored), the
persisted cursor never decreases: whenever a cursor c was stored, the attempt
persists some cursor cNew with c ≤ cNew — either c itself (no new rows, or no
usable timestamp) or the timestamp of the last row fetched. Only the prior-year
full-refresh path ever sets the cursor independently of the previous value. -/
theorem c7_cursor_monotone :
    ∀ (tsCol : String) (pageSize year : Nat) (env : YearEnv),
    (∀ page ∈ env.pages, ∀ row ∈ page, ∀ t,
        rowGet (cleanRow row) tsCol = some t → t ≠ "" →
        lowerBoundOk (pyOrStr (effLastTs env) (yearStartIso year)) (effLastTs env).isNone t) →
    ∀ c, effLastTs env = some c →
      ∃ cNew, (processYear tsCol pageSize year year env).lastTs = some cNew ∧ c ≤ cNew := by
  intro tsCol pageSize year env H c hc
  simp only [processYear, if_true]
  by_cases h0 : env.countResult = 0
  · rw [if_pos h0]
    exact ⟨c, hc, le_refl c⟩
  · rw [if_neg h0]
    cases hl : (downloadRowsRun tsCol pageSize env.pages env.existingHeader).latest with
    | none =>
      refine ⟨c, ?_, le_refl c⟩
      show pyOrOptStr none (effLastTs env) = some c
      exact hc
    | some t =>
      by_cases ht : t = ""
      · subst ht
        refine ⟨c, ?_, le_refl c⟩
        show pyOrOptStr (some "") (effLastTs env) = some c
        simpa [pyOrOptStr] using hc
      · rcases downloadRowsGo_latest env.pages _ t hl with h2 | ⟨page, hp, row, hrow, hg, hne⟩
        · cases h2
        · have hlow := H page hp row hrow t hg hne
          rw [hc] at hlow
          simp only [Option.isNone_some, lowerBoundOk, Bool.false_eq_true, if_false] at hlow
          refine ⟨t, ?_, ?_⟩
          · show pyOrOptStr (some t) (effLastTs env) = some t
            simp [pyOrOptStr, ht]
          · by_cases hce : c = ""
            · exact hce ▸ str_nil_le t
            · rw [show pyOrStr (some c) (yearStartIso year) = c by
                simp only [pyOrStr, if_neg hce]] at hlow
              exact le_of_lt hlow

theorem c7_cursor_monotone_witness :
    ∃ cNew, (processYear "t" 3 2024 2024
        ⟨false, 7, true, some "b", none, false, [], 0, []⟩).lastTs = some cNew
      ∧ "b" ≤ cNew :=
  c7_cursor_monotone "t" 3 2024 ⟨false, 7, true, some "b", none, false, [], 0, []⟩
    (fun page hp => absurd hp (List.not_mem_nil page)) "b" rfl

/-! ## C10: strict comparison above a stored cursor -/

/-- C10: in the current-year incremental path, the inclusive lower bound is
used only when no cursor is stored; and whenever a cursor c is stored, assuming
the remote honors the where clause the run sends, every row the run fetches
(and hence writes) has a timestamp strictly greater than c — no row with
timestamp at or below the stored cursor is ever fetched. -/
theorem c10_strict_above_cursor :
    ∀ (tsCol : String) (pageSize year : Nat) (env : YearEnv),
    (∀ page ∈ env.pages, ∀ row ∈ page, ∀ t,
        rowGet (cleanRow row) tsCol = some t → t ≠ "" →
        lowerBoundOk (pyOrStr (effLastTs env) (yearStartIso year)) (effLastTs env).isNone t) →
    ((processYear tsCol pageSize year year env).inclusiveUsed = true → effLastTs env = none)
    ∧ (∀ c, effLastTs env = some c →
        ∀ r ∈ (processYear tsCol pageSize year year env).kept, ∀ t,
          rowGet r tsCol = some t → c < t) := by
  intro tsCol pageSize year env H
  constructor
  · intro hincl
    simp only [processYear, if_true] at hincl
    by_cases h0 : env.countResult = 0
    · rw [if_pos h0] at hincl
      exact Option.isNone_iff_eq_none.mp hincl
    · rw [if_neg h0] at hincl
      exact Option.isNone_iff_eq_none.mp hincl
  · intro c hc r hr t hg
    simp only [processYear, if_true] at hr
    by_cases h0 : env.countResult = 0
    · rw [if_pos h0] at hr
      cases hr
    · rw [if_neg h0] at hr
      rcases downloadRowsGo_kept env.pages _ r hr with h2 | ⟨page, hp, row, hrow, hcl, t2, ht2, hne⟩
      · cases h2
      · have ht : t2 = t := by rw [hg] at ht2; injection ht2 with h3; exact h3.symm
        subst ht
        have hlow := H page hp row hrow t2 (by rw [hcl]; exact ht2) hne
        rw [hc] at hlow
        simp only [Option.isNone_some, lowerBoundOk, Bool.false_eq_true, if_false] at hlow
        by_cases hce : c = ""
        · subst hce
          exact lt_of_le_of_ne (str_nil_le t2) (Ne.symm hne)
        · rw [show pyOrStr (some c) (yearStartIso year) = c by
            simp only [pyOrStr, if_neg hce]] at hlow
          exact hlow

theorem c10_strict_above_cursor_witness :
    ("b" : String) < "c" :=
  (c10_strict_above_cursor "t" 5 2024
      ⟨false, 0, true, some "b", none, false, ["t"], 5, [[[("t", "c")]]]⟩
      (by
        intro page hp row hrow t hg hne
        simp only [List.mem_singleton] at hp
        subst hp
        simp only [List.mem_singleton] at hrow
        subst hrow
        simp only [cleanRow, startsColon, rowGet] at hg
        norm_num at hg
        obtain ⟨-, hgt⟩ := hg
        subst hgt
        simp only [effLastTs, pyFalsyOpt, lowerBoundOk, pyOrStr, Option.isNone_some]
        norm_num
        decide)).2
    "b" rfl [("t", "c")] (by decide) "c" (by decide)

/-! ## C8: task planner -/

theorem mem_insertSorted {x a : Int} : ∀ {l : List Int}, a ∈ insertSorted x l ↔ a = x ∨ a ∈ l := by
  intro l
  induction l with
  | nil => simp [insertSorted]
  | cons y ys ih =>
    by_cases h : x ≤ y
    · simp [insertSorted, h, List.mem_cons]
    · simp only [insertSorted, if_neg h, List.mem_cons, ih]
      tauto

theorem mem_sortInts {a : Int} : ∀ {l : List Int}, a ∈ sortInts l ↔ a ∈ l := by
  intro l
  induction l with
  | nil => simp [sortInts]
  | cons y ys ih =>
    show a ∈ insertSorted y (ys.foldr insertSorted []) ↔ a ∈ y :: ys
    rw [mem_insertSorted]
    have : a ∈ ys.foldr insertSorted [] ↔ a ∈ ys := ih
    rw [this, List.mem_cons]

theorem mem_monthTasks_aux (y : Int) (today : SimpleDate) :
    ∀ (months : List Nat) (acc : List (Int × Nat)) (p : Int × Nat),
      p ∈ months.foldl
          (fun acc2 m => if isFutureMonth y m today then acc2 else acc2 ++ [(y, m)]) acc ↔
        p ∈ acc ∨ (p.1 = y ∧ p.2 ∈ months ∧ isFutureMonth y p.2 today = false) := by
  intro months
  induction months with
  | nil => intro acc p; simp
  | cons m rest ih =>
    intro acc p
    simp only [List.foldl_cons]
    rw [ih]
    by_cases hf : isFutureMonth y m today
    · rw [if_pos hf]
      constructor
      · rintro (h | ⟨h1, h2, h3⟩)
        · exact Or.inl h
        · exact Or.inr ⟨h1, List.mem_cons_of_mem _ h2, h3⟩
      · rintro (h | ⟨h1, h2, h3⟩)
        · exact Or.inl h
        · rcases List.mem_cons.mp h2 with heq | h2m
          · rw [heq] at h3
            rw [h3] at hf
            cases hf
          · exact Or.inr ⟨h1, h2m, h3⟩
    · rw [if_neg hf]
      have hnf : isFutureMonth y m today = false := by simpa using hf
      constructor
      · rintro (h | ⟨h1, h2, h3⟩)
        · rcases List.mem_append.mp h with h | h
          · exact Or.inl h
          · rcases List.mem_singleton.mp h with rfl
            exact Or.inr ⟨rfl, List.mem_cons_self _ _, hnf⟩
        · exact Or.inr ⟨h1, List.mem_cons_of_mem _ h2, h3⟩
      · rintro (h | ⟨h1, h2, h3⟩)
        · exact Or.inl (List.mem_append.mpr (Or.inl h))
        · rcases List.mem_cons.mp h2 with heq | h2m
          · refine Or.inl (List.mem_append.mpr (Or.inr ?_))
            rcases p with ⟨p1, p2⟩
            simp only at h1 heq
            simp [h1, heq]
          · exact Or.inr ⟨h1, h2m, h3⟩

theorem mem_monthTasks {y : Int} {today : SimpleDate} {months : List Nat} {p : Int × Nat} :
    p ∈ monthTasks y months today ↔
      p.1 = y ∧ p.2 ∈ months ∧ isFutureMonth y p.2 today = false := by
  unfold monthTasks
  rw [mem_monthTasks_aux]
  simp

theorem mem_planTasks_aux (ds : List Int) (months : List Nat) (today : SimpleDate) :
    ∀ (ys : List Int) (acc : List (Int × Nat)) (p : Int × Nat),
      p ∈ ys.foldl
          (fun acc2 y => if y ∈ ds then acc2 ++ monthTasks y months today else acc2) acc ↔
        p ∈ acc ∨ ∃ y ∈ ys, y ∈ ds ∧ p ∈ monthTasks y months today := by
  intro ys
  induction ys with
  | nil => intro acc p; simp
  | cons y rest ih =>
    intro acc p
    simp only [List.foldl_cons]
    rw [ih]
    by_cases hd : y ∈ ds
    · rw [if_pos hd]
      constructor
      · rintro (h | ⟨y2, hy2, hd2, hm⟩)
        · rcases List.mem_append.mp h with h | h
          · exact Or.inl h
          · exact Or.inr ⟨y, List.mem_cons_self _ _, hd, h⟩
        · exact Or.inr ⟨y2, List.mem_cons_of_mem _ hy2, hd2, hm⟩
      · rintro (h | ⟨y2, hy2, hd2, hm⟩)
        · exact Or.inl (List.mem_append.mpr (Or.inl h))
        · rcases List.mem_cons.mp hy2 with rfl | hy2m
          · exact Or.inl (List.mem_append.mpr (Or.inr hm))
          · exact Or.inr ⟨y2, hy2m, hd2, hm⟩
    · rw [if_neg hd]
      constructor
      · rintro (h | ⟨y2, hy2, hd2, hm⟩)
        · exact Or.inl h
        · exact Or.inr ⟨y2, List.mem_cons_of_mem _ hy2, hd2, hm⟩
      · rintro (h | ⟨y2, hy2, hd2, hm⟩)
        · exact Or.inl h
        · rcases List.mem_cons.mp hy2 with rfl | hy2m
          · exact absurd hd2 hd
          · exact Or.inr ⟨y2, hy2m, hd2, hm⟩

/-- is_future_month compares against the first of the current month; as long as
today is a valid date (its day is at least 1), that is the same as comparing
the partition's start date against today itself. -/
theorem isFutureMonth_eq_dateLtb (y : Int) (m : Nat) (today : SimpleDate)
    (hday : 1 ≤ today.day) :
    isFutureMonth y m today = dateLtb today ⟨y, m, 1⟩ := by
  unfold isFutureMonth dateLtb
  simp only
  by_cases hy : today.year = y
  · by_cases hm : today.month = m
    · have h1 : ¬(1 : Nat) < 1 := by omega
      have h2 : ¬today.day < 1 := by omega
      simp [hy, hm, h1, h2]
    · simp [hy, hm]
  · simp [hy]

/-- C8: a (year, month) pair is planned if and only if the year is among the
requested years and present in the dataset mapping, the month is among the
requested months, and the first day of that month is not after the current
date. -/
theorem c8_planner_cross_product :
    ∀ (ds years : List Int) (months : List Nat) (today : SimpleDate) (y : Int) (m : Nat),
      1 ≤ today.day →
      ((y, m) ∈ planTasks ds years months today ↔
        y ∈ years ∧ y ∈ ds ∧ m ∈ months ∧ dateLtb today ⟨y, m, 1⟩ = false) := by
  intro ds years months today y m hday
  unfold planTasks
  rw [mem_planTasks_aux]
  simp only [List.not_mem_nil, false_or]
  constructor
  · rintro ⟨y2, hy2, hd2, hm⟩
    obtain ⟨h1, h2, h3⟩ := mem_monthTasks.mp hm
    simp only at h1 h2
    subst h1
    rw [isFutureMonth_eq_dateLtb _ _ _ hday] at h3
    exact ⟨mem_sortInts.mp hy2, hd2, h2, h3⟩
  · rintro ⟨hy, hd, hm, hlt⟩
    refine ⟨y, mem_sortInts.mpr hy, hd, mem_monthTasks.mpr ⟨rfl, hm, ?_⟩⟩
    rw [isFutureMonth_eq_dateLtb _ _ _ hday]
    exact hlt

theorem c8_planner_cross_product_witness :
    (2023, 9) ∈ planTasks [2023, 2024] [2023] [9, 12] ⟨2023, 10, 14⟩
    ∧ (2024, 1) ∉ planTasks [2023, 2024] [2023] [9, 12] ⟨2023, 10, 14⟩ :=
  ⟨(c8_planner_cross_product [2023, 2024] [2023] [9, 12] ⟨2023, 10, 14⟩ 2023 9
        (by decide)).mpr (by decide),
    fun hmem =>
      by
        have h := (c8_planner_cross_product [2023, 2024] [2023] [9, 12] ⟨2023, 10, 14⟩ 2024 1
            (by decide)).mp hmem
        exact absurd h.1 (by decide)⟩

end MtaSync
